import Mathlib

/-!
Shallow embedding of enforce-security-sla-action (Go), file src/main.go
(and the variant src/unnamed/part_000, whose core functions are identical).

Conventions of the embedding:
* `time.Time` and `time.Duration` are nanosecond counts, modelled as `Int`.
  `time.Since(t)` becomes `timeSince now t = now - t` with the clock reading
  `now` passed explicitly.
* Go slices become `List`; the `append` loop of `filterBreachedAlerts` becomes
  a `List.foldl` that appends to the accumulator, exactly mirroring the loop.
* The GitHub client is the external collaborator: the value each of its calls
  would return is passed in as an `Except GhError (List _)` argument.
* Go `int`/`time.Duration` arithmetic is 64-bit two's complement; where the
  source multiplies (threshold derivation, main.go lines 48-51) we reduce with
  `wrap64`, i.e. modulo 2^64 into the signed range.
-/

/-- The `Alert` struct of main.go lines 150-155. -/
structure Alert where
  Kind : String
  Severity : String
  Link : String
  CreatedAt : Int
deriving DecidableEq, Repr

/-- `time.Since(t)` at clock reading `now`: the age of `t` in nanoseconds. -/
def timeSince (now t : Int) : Int :=
  now - t

/-- `filterBreachedAlerts` of main.go lines 229-241: loop over the alerts,
compute `s := time.Since(a.CreatedAt)`, and append the alert to `breached`
when `s` exceeds any of the four thresholds. -/
def filterBreachedAlerts (alerts : List Alert)
    (criticalThreshold highThreshold mediumThreshold lowThreshold now : Int) :
    List Alert :=
  alerts.foldl
    (fun breached a =>
      let s := timeSince now a.CreatedAt
      if s > criticalThreshold ∨ s > highThreshold ∨ s > mediumThreshold ∨ s > lowThreshold then
        breached ++ [a]
      else
        breached)
    []

/-- The breach test of main.go line 235 as a boolean predicate on one alert. -/
def slaBreach (criticalThreshold highThreshold mediumThreshold lowThreshold now : Int)
    (a : Alert) : Bool :=
  let s := timeSince now a.CreatedAt
  decide (s > criticalThreshold) || decide (s > highThreshold) ||
    decide (s > mediumThreshold) || decide (s > lowThreshold)

theorem filterBreachedAlerts_foldl_aux (ct ht mt lt now : Int) (alerts : List Alert) :
    ∀ acc : List Alert,
      alerts.foldl
        (fun breached a =>
          let s := timeSince now a.CreatedAt
          if s > ct ∨ s > ht ∨ s > mt ∨ s > lt then breached ++ [a] else breached)
        acc
      = acc ++ alerts.filter (slaBreach ct ht mt lt now) := by
  induction alerts with
  | nil => intro acc; simp
  | cons a l ih =>
    intro acc
    simp only [List.foldl_cons, List.filter_cons]
    rw [ih]
    by_cases h : timeSince now a.CreatedAt > ct ∨ timeSince now a.CreatedAt > ht ∨
        timeSince now a.CreatedAt > mt ∨ timeSince now a.CreatedAt > lt
    · have hb : slaBreach ct ht mt lt now a = true := by
        simp only [slaBreach, Bool.or_eq_true, decide_eq_true_eq]
        tauto
      simp [h, hb, List.append_assoc]
    · have hb : slaBreach ct ht mt lt now a = false := by
        simp only [slaBreach, Bool.or_eq_false_iff, decide_eq_false_iff_not]
        tauto
      simp [h, hb]

/-- `filterBreachedAlerts` is exactly a filter by the breach test. -/
theorem filterBreachedAlerts_eq_filter (alerts : List Alert) (ct ht mt lt now : Int) :
    filterBreachedAlerts alerts ct ht mt lt now
      = alerts.filter (slaBreach ct ht mt lt now) := by
  unfold filterBreachedAlerts
  rw [filterBreachedAlerts_foldl_aux]
  simp

/-- C1: an alert of the input list is in the result of `filterBreachedAlerts`
iff its age `timeSince now a.CreatedAt` exceeds at least one of the four
thresholds, regardless of its severity. -/
theorem mem_filterBreachedAlerts_iff (alerts : List Alert) (ct ht mt lt now : Int)
    (a : Alert) (ha : a ∈ alerts) :
    a ∈ filterBreachedAlerts alerts ct ht mt lt now ↔
      (timeSince now a.CreatedAt > ct ∨ timeSince now a.CreatedAt > ht ∨
        timeSince now a.CreatedAt > mt ∨ timeSince now a.CreatedAt > lt) := by
  rw [filterBreachedAlerts_eq_filter, List.mem_filter]
  simp only [slaBreach, Bool.or_eq_true, decide_eq_true_eq, ha, true_and]
  tauto

theorem mem_filterBreachedAlerts_iff_witness :
    ((⟨"CodeScanning", "low", "u", 0⟩ : Alert) ∈
        filterBreachedAlerts [⟨"CodeScanning", "low", "u", 0⟩] 10 10 10 1 5 ↔
      (timeSince 5 (0 : Int) > 10 ∨ timeSince 5 (0 : Int) > 10 ∨
        timeSince 5 (0 : Int) > 10 ∨ timeSince 5 (0 : Int) > 1)) :=
  mem_filterBreachedAlerts_iff [⟨"CodeScanning", "low", "u", 0⟩] 10 10 10 1 5
    ⟨"CodeScanning", "low", "u", 0⟩ (by decide)

/-- Modelled from the spec: the threshold applicable to an alert's severity
tier ("four per-severity age thresholds ... one per severity tier",
critical/high/medium/low). The source's `filterBreachedAlerts` fetches the
severity but never selects a threshold by it, so this definition follows the
spec's words, for comparison with the source behaviour. -/
def applicableThreshold (severity : String) (ct ht mt lt : Int) : Int :=
  if severity = "critical" then ct
  else if severity = "high" then ht
  else if severity = "medium" then mt
  else lt

/-- C2: the code diverges from the per-severity reading. A critical alert aged
5 ns against thresholds (critical 10, high 10, medium 10, low 1) is returned
by `filterBreachedAlerts` although its age does not exceed the threshold
applicable to its severity tier. -/
theorem filterBreachedAlerts_ignores_severity :
    filterBreachedAlerts [⟨"Dependabot", "critical", "u", 0⟩] 10 10 10 1 5
        = [⟨"Dependabot", "critical", "u", 0⟩] ∧
      ¬ timeSince 5 (0 : Int) > applicableThreshold "critical" 10 10 10 1 := by
  constructor
  · decide
  · decide

/-- C4: if every alert of the input is no older than each of the four
thresholds, `filterBreachedAlerts` returns the empty list. -/
theorem filterBreachedAlerts_eq_nil (alerts : List Alert) (ct ht mt lt now : Int)
    (h : ∀ a ∈ alerts,
      timeSince now a.CreatedAt ≤ ct ∧ timeSince now a.CreatedAt ≤ ht ∧
        timeSince now a.CreatedAt ≤ mt ∧ timeSince now a.CreatedAt ≤ lt) :
    filterBreachedAlerts alerts ct ht mt lt now = [] := by
  rw [filterBreachedAlerts_eq_filter]
  rw [List.filter_eq_nil_iff]
  intro a ha
  have hb := h a ha
  simp only [slaBreach, Bool.or_eq_true, decide_eq_true_eq]
  omega

theorem filterBreachedAlerts_eq_nil_witness :
    filterBreachedAlerts [⟨"CodeScanning", "high", "u", 0⟩] 10 10 10 10 5 = [] :=
  filterBreachedAlerts_eq_nil [⟨"CodeScanning", "high", "u", 0⟩] 10 10 10 10 5
    (by decide)

/-- C5: an alert of the input whose age exceeds the maximum of the four
thresholds appears in the result of `filterBreachedAlerts`. -/
theorem mem_filterBreachedAlerts_of_gt_max (alerts : List Alert) (ct ht mt lt now : Int)
    (a : Alert) (ha : a ∈ alerts)
    (hgt : timeSince now a.CreatedAt > max (max ct ht) (max mt lt)) :
    a ∈ filterBreachedAlerts alerts ct ht mt lt now := by
  rw [filterBreachedAlerts_eq_filter, List.mem_filter]
  refine ⟨ha, ?_⟩
  simp only [slaBreach, Bool.or_eq_true, decide_eq_true_eq]
  omega

theorem mem_filterBreachedAlerts_of_gt_max_witness :
    (⟨"SecretScanning", "critical", "u", 0⟩ : Alert) ∈
      filterBreachedAlerts [⟨"SecretScanning", "critical", "u", 0⟩] 4 3 2 1 5 :=
  mem_filterBreachedAlerts_of_gt_max [⟨"SecretScanning", "critical", "u", 0⟩] 4 3 2 1 5
    ⟨"SecretScanning", "critical", "u", 0⟩ (by decide) (by decide)

/-- C8 counterexample: `filterBreachedAlerts` reads the wall clock through
`time.Since`, so two runs on the same alert list and the same four thresholds
need not agree: at clock reading 5 the alert below is within SLA, at clock
reading 20 it is breached. -/
theorem filterBreachedAlerts_clock_dependent :
    filterBreachedAlerts [⟨"CodeScanning", "low", "u", 0⟩] 10 10 10 10 5 ≠
      filterBreachedAlerts [⟨"CodeScanning", "low", "u", 0⟩] 10 10 10 10 20 := by
  decide

/-- C8 (amended): the SLA evaluator is a total pure function of the alert
list, the four thresholds and the clock reading at which ages are taken: it
equals a `List.filter` by the pointwise breach test, hence raises no errors
and two runs observing the same clock reading return the same subset. -/
theorem filterBreachedAlerts_deterministic (alerts : List Alert) (ct ht mt lt now : Int) :
    filterBreachedAlerts alerts ct ht mt lt now
      = List.filter (slaBreach ct ht mt lt now) alerts := by
  rw [filterBreachedAlerts_eq_filter]

/-- The breach test is decided by the minimum of the four thresholds. -/
theorem slaBreach_eq_min (ct ht mt lt now : Int) (a : Alert) :
    slaBreach ct ht mt lt now a
      = decide (timeSince now a.CreatedAt > min ct (min ht (min mt lt))) := by
  simp only [slaBreach]
  rw [Bool.eq_iff_iff]
  simp only [Bool.or_eq_true, decide_eq_true_eq]
  omega

/-- C9: the result of `filterBreachedAlerts` is invariant under every
permutation of the four threshold arguments (the six transpositions below
generate all of them), and membership is decided by the minimum of the four
thresholds alone. -/
theorem filterBreachedAlerts_threshold_symm (alerts : List Alert) (t1 t2 t3 t4 now : Int) :
    filterBreachedAlerts alerts t1 t2 t3 t4 now = filterBreachedAlerts alerts t2 t1 t3 t4 now ∧
    filterBreachedAlerts alerts t1 t2 t3 t4 now = filterBreachedAlerts alerts t3 t2 t1 t4 now ∧
    filterBreachedAlerts alerts t1 t2 t3 t4 now = filterBreachedAlerts alerts t4 t2 t3 t1 now ∧
    filterBreachedAlerts alerts t1 t2 t3 t4 now = filterBreachedAlerts alerts t1 t3 t2 t4 now ∧
    filterBreachedAlerts alerts t1 t2 t3 t4 now = filterBreachedAlerts alerts t1 t4 t3 t2 now ∧
    filterBreachedAlerts alerts t1 t2 t3 t4 now = filterBreachedAlerts alerts t1 t2 t4 t3 now ∧
    ∀ a, a ∈ filterBreachedAlerts alerts t1 t2 t3 t4 now ↔
      (a ∈ alerts ∧ timeSince now a.CreatedAt > min t1 (min t2 (min t3 t4))) := by
  have hswap : ∀ u1 u2 u3 u4 : Int,
      min u1 (min u2 (min u3 u4)) = min t1 (min t2 (min t3 t4)) →
      filterBreachedAlerts alerts t1 t2 t3 t4 now = filterBreachedAlerts alerts u1 u2 u3 u4 now := by
    intro u1 u2 u3 u4 hmin
    rw [filterBreachedAlerts_eq_filter, filterBreachedAlerts_eq_filter]
    refine List.filter_congr ?_
    intro a _
    rw [slaBreach_eq_min, slaBreach_eq_min, hmin]
  refine ⟨hswap t2 t1 t3 t4 (by omega), hswap t3 t2 t1 t4 (by omega),
    hswap t4 t2 t3 t1 (by omega), hswap t1 t3 t2 t4 (by omega),
    hswap t1 t4 t3 t2 (by omega), hswap t1 t2 t4 t3 (by omega), ?_⟩
  intro a
  rw [filterBreachedAlerts_eq_filter, List.mem_filter, slaBreach_eq_min]
  simp only [decide_eq_true_eq]

/-- C10: the breach verdict of `filterBreachedAlerts` depends only on
`CreatedAt` (never on `Severity`, `Kind` or `Link`): two input alerts with
equal `CreatedAt`, evaluated at the same instant, are both included or both
excluded; and the output preserves the relative order of the input (it is a
sublist of it). -/
theorem filterBreachedAlerts_metadata_independent (alerts : List Alert)
    (ct ht mt lt now : Int) (a b : Alert) (ha : a ∈ alerts) (hb : b ∈ alerts)
    (hcreated : a.CreatedAt = b.CreatedAt) :
    (a ∈ filterBreachedAlerts alerts ct ht mt lt now ↔
      b ∈ filterBreachedAlerts alerts ct ht mt lt now) ∧
    List.Sublist (filterBreachedAlerts alerts ct ht mt lt now) alerts := by
  constructor
  · rw [filterBreachedAlerts_eq_filter, List.mem_filter, List.mem_filter]
    simp only [slaBreach, timeSince, hcreated, ha, hb, true_and]
  · rw [filterBreachedAlerts_eq_filter]
    exact List.filter_sublist alerts

theorem filterBreachedAlerts_metadata_independent_witness :
    ((⟨"CodeScanning", "low", "u", 0⟩ : Alert) ∈
        filterBreachedAlerts
          [⟨"CodeScanning", "low", "u", 0⟩, ⟨"Dependabot", "critical", "v", 0⟩] 1 2 3 4 9 ↔
      (⟨"Dependabot", "critical", "v", 0⟩ : Alert) ∈
        filterBreachedAlerts
          [⟨"CodeScanning", "low", "u", 0⟩, ⟨"Dependabot", "critical", "v", 0⟩] 1 2 3 4 9) ∧
    List.Sublist
      (filterBreachedAlerts
        [⟨"CodeScanning", "low", "u", 0⟩, ⟨"Dependabot", "critical", "v", 0⟩] 1 2 3 4 9)
      [⟨"CodeScanning", "low", "u", 0⟩, ⟨"Dependabot", "critical", "v", 0⟩] :=
  filterBreachedAlerts_metadata_independent
    [⟨"CodeScanning", "low", "u", 0⟩, ⟨"Dependabot", "critical", "v", 0⟩] 1 2 3 4 9
    ⟨"CodeScanning", "low", "u", 0⟩ ⟨"Dependabot", "critical", "v", 0⟩
    (by decide) (by decide) (by decide)

/-- Reduce an integer into the signed 64-bit range: Go `int` / `time.Duration`
two's-complement wrap-around. -/
def wrap64 (x : Int) : Int :=
  (x + 2 ^ 63) % 2 ^ 64 - 2 ^ 63

/-- `time.Hour` in nanoseconds. -/
def timeHour : Int :=
  3600 * 1000000000

/-- The threshold derivation of main.go lines 48-51:
`time.Duration(days*24) * time.Hour`, under Go 64-bit integer arithmetic. -/
def mkThreshold (days : Int) : Int :=
  wrap64 (wrap64 (days * 24) * timeHour)

theorem wrap64_eq_self (x : Int) (h1 : -(2 ^ 63) ≤ x) (h2 : x < 2 ^ 63) :
    wrap64 x = x := by
  unfold wrap64
  have h : (x + 2 ^ 63) % 2 ^ 64 = x + 2 ^ 63 :=
    Int.emod_eq_of_lt (by omega) (by omega)
  omega

/-- C7 counterexample: for the day count 2^60 (representable in a Go `int`)
the derived duration wraps around and is not the day count times 24 hours. -/
theorem mkThreshold_overflow :
    mkThreshold (2 ^ 60) ≠ 2 ^ 60 * 24 * timeHour := by
  decide

/-- C7 (amended): the duration threshold equals the supplied integer day count
multiplied by 24 hours whenever neither the multiplication by 24 nor the one
by `time.Hour` leaves the signed 64-bit range; outside it, Go arithmetic
wraps. -/
theorem mkThreshold_eq_days_mul_24h (days : Int)
    (h1 : -(2 ^ 63) ≤ days * 24) (h2 : days * 24 < 2 ^ 63)
    (h3 : -(2 ^ 63) ≤ days * 24 * timeHour) (h4 : days * 24 * timeHour < 2 ^ 63) :
    mkThreshold days = days * 24 * timeHour := by
  unfold mkThreshold
  rw [wrap64_eq_self _ h1 h2, wrap64_eq_self _ h3 h4]

theorem mkThreshold_eq_days_mul_24h_witness :
    mkThreshold 30 = 30 * 24 * timeHour :=
  mkThreshold_eq_days_mul_24h 30 (by decide) (by decide) (by decide) (by decide)

/-- `strings.Contains(s, substr)` of the Go standard library, scanning the
character list of `s` for an occurrence of `substr`. -/
def containsAux (pat : List Char) : List Char → Bool
  | [] => pat.isPrefixOf []
  | c :: rest => pat.isPrefixOf (c :: rest) || containsAux pat rest

/-- `strings.Contains` on `String`. -/
def stringsContains (s substr : String) : Bool :=
  containsAux substr.data s.data

/-- A GitHub client error: a `*github.ErrorResponse` carrying a message, or
any other error value. -/
inductive GhError where
  | errorResponse (message : String)
  | otherError (message : String)
deriving DecidableEq, Repr

/-- The message of a GitHub client error. -/
def GhError.message : GhError → String
  | GhError.errorResponse m => m
  | GhError.otherError m => m

/-- `isDisabledError` of main.go lines 243-250: true exactly when the error is
a `*github.ErrorResponse` whose message contains "disabled". -/
def isDisabledError (e : GhError) : Bool :=
  match e with
  | GhError.errorResponse m => stringsContains m "disabled"
  | GhError.otherError _ => false

/-- An item returned by `CodeScanning.ListAlertsForRepo`, restricted to the
fields main.go reads. -/
structure CodeScanningAlert where
  RuleSeverity : String
  HTMLURL : String
  CreatedAt : Int
deriving DecidableEq, Repr

/-- An item returned by `Dependabot.ListRepoAlerts`, restricted to the fields
main.go reads (`SecurityAdvisory.Severity`). -/
structure DependabotAlert where
  SecurityAdvisorySeverity : String
  HTMLURL : String
  CreatedAt : Int
deriving DecidableEq, Repr

/-- An item returned by `SecretScanning.ListAlertsForRepo`, restricted to the
fields main.go reads. -/
structure SecretScanningAlert where
  HTMLURL : String
  CreatedAt : Int
deriving DecidableEq, Repr

/-- `fetchRepoAlerts` of main.go lines 157-227. The three GitHub listing
calls are the external collaborator: each argument is the outcome the
corresponding call would return (a failing call yields no alert items). A
failure not recognised by `isDisabledError` aborts with that error, in call
order; a disabled-feature failure contributes zero alerts and the fetch
continues. -/
def fetchRepoAlerts
    (csRes : Except GhError (List CodeScanningAlert))
    (depRes : Except GhError (List DependabotAlert))
    (ssRes : Except GhError (List SecretScanningAlert)) :
    Except GhError (List Alert) :=
  let csAlerts : Except GhError (List Alert) :=
    match csRes with
    | Except.error e => if isDisabledError e then Except.ok [] else Except.error e
    | Except.ok xs =>
        Except.ok (xs.map fun a =>
          { Kind := "CodeScanning", Severity := a.RuleSeverity,
            Link := a.HTMLURL, CreatedAt := a.CreatedAt })
  match csAlerts with
  | Except.error e => Except.error e
  | Except.ok l1 =>
    let depAlerts : Except GhError (List Alert) :=
      match depRes with
      | Except.error e => if isDisabledError e then Except.ok [] else Except.error e
      | Except.ok xs =>
          Except.ok (xs.map fun a =>
            { Kind := "Dependabot", Severity := a.SecurityAdvisorySeverity,
              Link := a.HTMLURL, CreatedAt := a.CreatedAt })
    match depAlerts with
    | Except.error e => Except.error e
    | Except.ok l2 =>
      let ssAlerts : Except GhError (List Alert) :=
        match ssRes with
        | Except.error e => if isDisabledError e then Except.ok [] else Except.error e
        | Except.ok xs =>
            Except.ok (xs.map fun a =>
              { Kind := "SecretScanning", Severity := "critical",
                Link := a.HTMLURL, CreatedAt := a.CreatedAt })
      match ssAlerts with
      | Except.error e => Except.error e
      | Except.ok l3 => Except.ok (l1 ++ l2 ++ l3)

/-- A listing outcome that does not abort the fetch: a success, or a failure
recognised as a disabled security feature. -/
def sourcePasses {α : Type} (res : Except GhError (List α)) : Prop :=
  ∀ e, res = Except.error e → isDisabledError e = true

/-- C6: a listing failure recognised by `isDisabledError` contributes zero
alerts from that source and the fetch continues (it behaves as if the source
had returned no items); any other listing failure makes `fetchRepoAlerts`
return that error (sources are consulted in call order, so a later call only
fails the fetch when the earlier calls did not already abort it). -/
theorem fetchRepoAlerts_error_handling
    (csRes : Except GhError (List CodeScanningAlert))
    (depRes : Except GhError (List DependabotAlert))
    (ssRes : Except GhError (List SecretScanningAlert)) :
    (∀ e, isDisabledError e = true →
      fetchRepoAlerts (Except.error e) depRes ssRes
          = fetchRepoAlerts (Except.ok []) depRes ssRes ∧
        fetchRepoAlerts csRes (Except.error e) ssRes
          = fetchRepoAlerts csRes (Except.ok []) ssRes ∧
        fetchRepoAlerts csRes depRes (Except.error e)
          = fetchRepoAlerts csRes depRes (Except.ok [])) ∧
    (∀ e, isDisabledError e = false →
      fetchRepoAlerts (Except.error e) depRes ssRes = Except.error e ∧
        (sourcePasses csRes →
          fetchRepoAlerts csRes (Except.error e) ssRes = Except.error e) ∧
        (sourcePasses csRes → sourcePasses depRes →
          fetchRepoAlerts csRes depRes (Except.error e) = Except.error e)) := by
  constructor
  · intro e he
    refine ⟨?_, ?_, ?_⟩
    · simp [fetchRepoAlerts, he]
    · cases csRes with
      | error e1 =>
        by_cases h1 : isDisabledError e1 <;> simp [fetchRepoAlerts, he, h1]
      | ok xs => simp [fetchRepoAlerts, he]
    · cases csRes with
      | error e1 =>
        cases depRes with
        | error e2 =>
          by_cases h1 : isDisabledError e1 <;> by_cases h2 : isDisabledError e2 <;>
            simp [fetchRepoAlerts, he, h1, h2]
        | ok ys =>
          by_cases h1 : isDisabledError e1 <;> simp [fetchRepoAlerts, he, h1]
      | ok xs =>
        cases depRes with
        | error e2 =>
          by_cases h2 : isDisabledError e2 <;> simp [fetchRepoAlerts, he, h2]
        | ok ys => simp [fetchRepoAlerts, he]
  · intro e he
    refine ⟨?_, ?_, ?_⟩
    · simp [fetchRepoAlerts, he]
    · intro hcs
      cases csRes with
      | error e1 => simp [fetchRepoAlerts, he, hcs e1 rfl]
      | ok xs => simp [fetchRepoAlerts, he]
    · intro hcs hdep
      cases csRes with
      | error e1 =>
        cases depRes with
        | error e2 => simp [fetchRepoAlerts, he, hcs e1 rfl, hdep e2 rfl]
        | ok ys => simp [fetchRepoAlerts, he, hcs e1 rfl]
      | ok xs =>
        cases depRes with
        | error e2 => simp [fetchRepoAlerts, he, hdep e2 rfl]
        | ok ys => simp [fetchRepoAlerts, he]

theorem fetchRepoAlerts_error_handling_witness :
    fetchRepoAlerts (Except.ok [⟨"high", "u", 3⟩])
        (Except.error (GhError.errorResponse "Dependabot alerts are disabled for this repository."))
        (Except.ok [])
      = fetchRepoAlerts (Except.ok [⟨"high", "u", 3⟩]) (Except.ok []) (Except.ok []) ∧
    fetchRepoAlerts (Except.error (GhError.otherError "connection reset"))
        (Except.ok []) (Except.ok [])
      = Except.error (GhError.otherError "connection reset") :=
  ⟨((fetchRepoAlerts_error_handling (Except.ok [⟨"high", "u", 3⟩]) (Except.ok [])
      (Except.ok [])).1
      (GhError.errorResponse "Dependabot alerts are disabled for this repository.")
      (by decide)).2.1,
    ((fetchRepoAlerts_error_handling (Except.ok [⟨"high", "u", 3⟩]) (Except.ok [])
      (Except.ok [])).2
      (GhError.otherError "connection reset") (by decide)).1⟩

/-- The event `action.GetEvent` yields, reduced to what main.go reads
(main.go lines 64-71). -/
inductive Event where
  | pullRequest (headSHA : String)
  | pullRequestTarget (headSHA : String)
  | unexpected (typeName : String)
deriving DecidableEq, Repr

/-- `github.CreateCheckRunOptions`, restricted to the fields main.go sets
(timestamps carry no decision content and are omitted). -/
structure CreateCheckRunOptions where
  Name : String
  HeadSHA : String
  Status : String
  Conclusion : String
  Title : String
  Summary : String
deriving DecidableEq, Repr

/-- Constant of main.go line 16. -/
def checkRunName : String :=
  "Security SLA"

/-- Constant of main.go line 17. -/
def checkRunSuccessTitle : String :=
  "No security SLA breaches found"

/-- Constant of main.go line 18. -/
def checkRunSuccessText : String :=
  "All security alerts are within the security SLA."

/-- `fmt.Sprintf(checkRunFailureTitle, n)` for the constant of main.go
line 19. -/
def checkRunFailureTitle (n : Nat) : String :=
  "Found " ++ toString n ++ " security SLA breaches"

/-- `fmt.Sprintf(checkRunFailureText, breached, total)` for the constant of
main.go line 20. -/
def checkRunFailureText (breachedCount total : Nat) : String :=
  "Found " ++ toString breachedCount ++ " out of " ++ toString total ++
    " security alerts breaching security SLA."

/-- The `Action` struct of main.go lines 31-37 (named `Action` in the source;
qualified here to avoid the clash with the Mathlib name). -/
structure SLA.Action where
  Token : String
  Critical : Int
  High : Int
  Medium : Int
  Low : Int
deriving DecidableEq, Repr

/-- `Action.Run` of main.go lines 39-148, with its I/O collaborators passed
explicitly: `now` is the clock reading, `event` the outcome of
`action.GetEvent`, the three `Except` arguments the outcomes of the GitHub
listing calls consumed by `fetchRepoAlerts`, and `publishErr` the error (if
any) that `Checks.CreateCheckRun` would return. The result is the published
check run, or the error `Run` returns. -/
def SLA.Action.Run (a : SLA.Action) (now : Int) (event : Except String Event)
    (csRes : Except GhError (List CodeScanningAlert))
    (depRes : Except GhError (List DependabotAlert))
    (ssRes : Except GhError (List SecretScanningAlert))
    (publishErr : Option String) : Except String CreateCheckRunOptions :=
  let criticalThreshold := mkThreshold a.Critical
  let highThreshold := mkThreshold a.High
  let mediumThreshold := mkThreshold a.Medium
  let lowThreshold := mkThreshold a.Low
  match event with
  | Except.error e => Except.error e
  | Except.ok ev =>
    match ev with
    | Event.unexpected t => Except.error ("unexpected event type: " ++ t)
    | Event.pullRequest headSHA | Event.pullRequestTarget headSHA =>
      match fetchRepoAlerts csRes depRes ssRes with
      | Except.error e => Except.error e.message
      | Except.ok alerts =>
        if alerts.length = 0 then
          match publishErr with
          | some m => Except.error m
          | none =>
            Except.ok
              { Name := checkRunName, HeadSHA := headSHA, Status := "completed",
                Conclusion := "success", Title := checkRunSuccessTitle,
                Summary := checkRunSuccessText }
        else
          let breached := filterBreachedAlerts alerts criticalThreshold highThreshold
            mediumThreshold lowThreshold now
          if breached.length = 0 then
            match publishErr with
            | some m => Except.error m
            | none =>
              Except.ok
                { Name := checkRunName, HeadSHA := headSHA, Status := "completed",
                  Conclusion := "success", Title := checkRunSuccessTitle,
                  Summary := checkRunSuccessText }
          else
            match publishErr with
            | some m => Except.error m
            | none =>
              Except.ok
                { Name := checkRunName, HeadSHA := headSHA, Status := "completed",
                  Conclusion := "failure",
                  Title := checkRunFailureTitle breached.length,
                  Summary := checkRunFailureText breached.length alerts.length }

/-- C3: when the fetch yields an empty alert list the breached set is empty,
and `Action.Run` publishes a check run with conclusion "success" and returns
it without error when the publish call itself succeeds. -/
theorem run_empty_alerts_success (a : SLA.Action) (now : Int) (sha : String)
    (csRes : Except GhError (List CodeScanningAlert))
    (depRes : Except GhError (List DependabotAlert))
    (ssRes : Except GhError (List SecretScanningAlert))
    (hfetch : fetchRepoAlerts csRes depRes ssRes = Except.ok []) :
    filterBreachedAlerts [] (mkThreshold a.Critical) (mkThreshold a.High)
        (mkThreshold a.Medium) (mkThreshold a.Low) now = [] ∧
    SLA.Action.Run a now (Except.ok (Event.pullRequest sha)) csRes depRes ssRes none
      = Except.ok
          { Name := checkRunName, HeadSHA := sha, Status := "completed",
            Conclusion := "success", Title := checkRunSuccessTitle,
            Summary := checkRunSuccessText } := by
  constructor
  · rw [filterBreachedAlerts_eq_filter]
    rfl
  · simp [SLA.Action.Run, hfetch]

theorem run_empty_alerts_success_witness :
    filterBreachedAlerts [] (mkThreshold 1) (mkThreshold 2) (mkThreshold 3)
        (mkThreshold 4) 99 = [] ∧
    SLA.Action.Run ⟨"t", 1, 2, 3, 4⟩ 99 (Except.ok (Event.pullRequest "abc"))
        (Except.ok []) (Except.ok []) (Except.ok []) none
      = Except.ok
          { Name := checkRunName, HeadSHA := "abc", Status := "completed",
            Conclusion := "success", Title := checkRunSuccessTitle,
            Summary := checkRunSuccessText } :=
  run_empty_alerts_success ⟨"t", 1, 2, 3, 4⟩ 99 "abc"
    (Except.ok []) (Except.ok []) (Except.ok []) rfl
